import Mathlib

/-!
Shallow embedding of the Draft Docs client scripts: the document
persistence logic of docs-script.js (saveDocument, loadDocument,
publishDocument, the auto-save tick) and the login form handler.

The browser state that this logic reads and writes is made explicit:
the editor surface and the title input, the session user, the current
project id taken from the URL, the unsaved-changes flag, and the
zenoDocs collection in local storage. The collection is modelled as a
total map from usernames to document lists; a key missing from the
stored JSON object reads as the empty list, which matches the default
of an empty array in the script.

Nondeterministic browser inputs are passed as parameters of the
operations: now stands for the string produced at the call site by the
current date, and newId for the string produced from the current
millisecond clock, used as the generated document id. JavaScript
truthiness of strings (only the empty string is falsy) is modelled by
explicit emptiness tests wherever the script branches on a string.
-/

/-- A stored document, with the fields built by saveDocument. -/
structure Doc where
  id : String
  title : String
  content : String
  author : String
  createdAt : String
  modifiedAt : String
  published : Bool
deriving DecidableEq

/-- The page state read and written by docs-script.js. The field store
is the zenoDocs collection held in local storage. -/
structure EditorState where
  editorContent : String
  docTitle : String
  currentUser : String
  currentProjectId : Option String
  hasUnsavedChanges : Bool
  store : String → List Doc

/-- The assignment of a document list to one username key of the
collection, followed by serialising the whole object back to local
storage: every other key keeps its previous value. -/
def setStore (store : String → List Doc) (u : String) (docs : List Doc) :
    String → List Doc :=
  fun v => if v = u then docs else store v

/-- Whether findIndex on the user documents succeeds for the given id,
that is, whether the list holds a document whose id equals pid. -/
def existsById (docs : List Doc) (pid : String) : Bool :=
  docs.any (fun d => d.id == pid)

/-- In-place mutation of the first document whose id equals pid, as
performed through the reference returned by find or findIndex; the
rest of the list is untouched. -/
def modifyFirstById (docs : List Doc) (pid : String) (f : Doc → Doc) : List Doc :=
  match docs with
  | [] => []
  | d :: rest =>
    if d.id == pid then f d :: rest else d :: modifyFirstById rest pid f

/-- The identity resolution step of saveDocument: currentProjectId is
consulted only when truthy (non-null and nonempty), and the id is
returned exactly when findIndex on the current user documents
succeeds, that is, when docIndex > -1 in the script. -/
def saveMatchedId (st : EditorState) : Option String :=
  match st.currentProjectId with
  | none => none
  | some pid =>
    if pid = "" then none
    else if existsById (st.store st.currentUser) pid then some pid else none

/-- The create branch of saveDocument: a fresh document built from the
editor content, the title input and the current user is pushed at the
end of the user list, and its generated id becomes the current project
id. -/
def createNewDoc (st : EditorState) (now newId : String) : EditorState :=
  let newDoc : Doc :=
    { id := newId
      title := st.docTitle
      content := st.editorContent
      author := st.currentUser
      createdAt := now
      modifiedAt := now
      published := false }
  { st with
    store := setStore st.store st.currentUser (st.store st.currentUser ++ [newDoc])
    currentProjectId := some newId
    hasUnsavedChanges := false }

/-- The update branch of saveDocument: the matched document gets the
editor title, the editor content and a fresh modification date. -/
def updateExistingDoc (st : EditorState) (pid now : String) : EditorState :=
  { st with
    store := setStore st.store st.currentUser
      (modifyFirstById (st.store st.currentUser) pid
        (fun d => { d with title := st.docTitle
                           content := st.editorContent
                           modifiedAt := now }))
    hasUnsavedChanges := false }

/-- saveDocument from docs-script.js: update the matched document when
identity resolution succeeds, create a new one otherwise; either way
the unsaved-changes flag is cleared. -/
def saveDocument (st : EditorState) (now newId : String) : EditorState :=
  match saveMatchedId st with
  | some pid => updateExistingDoc st pid now
  | none => createNewDoc st now newId

/-- JavaScript string disjunction: the left operand unless it is the
empty string (the only falsy string). -/
def jsOr (a b : String) : String :=
  if a = "" then b else a

/-- The docToLoad computation of loadDocument: a document is looked up
only when currentProjectId is truthy, by find over the current user
documents. -/
def docToLoadOf (st : EditorState) : Option Doc :=
  match st.currentProjectId with
  | none => none
  | some pid =>
    if pid = "" then none
    else (st.store st.currentUser).find? (fun d => d.id == pid)

/-- loadDocument from docs-script.js: on a hit the editor content and
the title input are filled from the stored document through the
falsy-string fallbacks of the script; on a miss the current project id
is reset to null and a blank untitled document is shown. The stored
collection is never written. -/
def loadDocument (st : EditorState) : EditorState :=
  match docToLoadOf st with
  | some d =>
    { st with
      editorContent := jsOr d.content ""
      docTitle := jsOr d.title "Untitled Document" }
  | none =>
    { st with
      currentProjectId := none
      editorContent := ""
      docTitle := "Untitled Document" }

/-- The part of publishDocument after its saveDocument call, acting on
the state the save left behind: when the current project id is falsy
it only alerts and returns; otherwise it assigns true to the published
field of the document found by id in the reread collection. The
assignment dereferences the result of find, so a failed lookup is the
error outcome, modelled as none. -/
def publishAfterSave (st1 : EditorState) : Option EditorState :=
  match st1.currentProjectId with
  | none => some st1
  | some pid =>
    if pid = "" then some st1
    else
      match (st1.store st1.currentUser).find? (fun d => d.id == pid) with
      | none => none
      | some _ =>
        some { st1 with
               store := setStore st1.store st1.currentUser
                 (modifyFirstById (st1.store st1.currentUser) pid
                   (fun d => { d with published := true })) }

/-- publishDocument from docs-script.js: it first runs saveDocument to
persist any pending changes, then flips the published flag of the
current document. -/
def publishDocument (st : EditorState) (now newId : String) :
    Option EditorState :=
  publishAfterSave (saveDocument st now newId)

/-- One tick of the auto-save interval: saveDocument runs exactly when
the unsaved-changes flag is set, otherwise the tick does nothing. -/
def autoSaveTick (st : EditorState) (now newId : String) : EditorState :=
  if st.hasUnsavedChanges then saveDocument st now newId else st

/-- The state touched by the login page handler: the session user key
and the page location. -/
structure LoginState where
  sessionUser : Option String
  location : String
deriving DecidableEq

/-- JavaScript string trim: whitespace characters stripped from both
ends, modelled over the character list of the string. -/
def jsTrim (s : String) : String :=
  ⟨((s.data.dropWhile Char.isWhitespace).reverse.dropWhile Char.isWhitespace).reverse⟩

/-- The submit handler of the login form: the input value is trimmed;
when the result is nonempty (truthy) it is stored as the session user
and the page is redirected to the editor, otherwise nothing happens. -/
def loginSubmit (st : LoginState) (input : String) : LoginState :=
  let username := jsTrim input
  if username = "" then st
  else { sessionUser := some username, location := "docs.html" }

/-!
Concrete states used to instantiate the theorems below on explicit
inputs.
-/

/-- A fresh session of user alice with an empty collection. -/
def stW1 : EditorState :=
  { editorContent := "hello", docTitle := "T", currentUser := "alice",
    currentProjectId := none, hasUnsavedChanges := true,
    store := fun _ => [] }

/-- A session of user alice editing document 1 out of two stored
documents. -/
def stW2 : EditorState :=
  { editorContent := "new body", docTitle := "New Title", currentUser := "alice",
    currentProjectId := some "1", hasUnsavedChanges := true,
    store := fun v => if v = "alice" then
      [{ id := "1", title := "Old", content := "old body", author := "alice",
         createdAt := "c1", modifiedAt := "m1", published := true },
       { id := "2", title := "Other", content := "other body", author := "alice",
         createdAt := "c2", modifiedAt := "m2", published := false }] else [] }

/-- A fresh session of user alice about to publish a new document. -/
def stW3 : EditorState :=
  { editorContent := "body3", docTitle := "T3", currentUser := "alice",
    currentProjectId := none, hasUnsavedChanges := true,
    store := fun _ => [] }

/-- The stored document of stC4, with an empty title. -/
def docC4 : Doc :=
  { id := "1", title := "", content := "c", author := "u",
    createdAt := "d", modifiedAt := "d", published := false }

/-- A session of user u whose current id resolves to a stored document
carrying an empty title. -/
def stC4 : EditorState :=
  { editorContent := "stale", docTitle := "stale", currentUser := "u",
    currentProjectId := some "1", hasUnsavedChanges := false,
    store := fun v => if v = "u" then [docC4] else [] }

/-- A fresh session of user u with an empty title input. -/
def stC5 : EditorState :=
  { editorContent := "body5", docTitle := "", currentUser := "u",
    currentProjectId := none, hasUnsavedChanges := true,
    store := fun _ => [] }

/-- A fresh session of user u with a nonempty title input. -/
def stW5 : EditorState :=
  { editorContent := "body5", docTitle := "Title5", currentUser := "u",
    currentProjectId := none, hasUnsavedChanges := true,
    store := fun _ => [] }

/-- A session of user alice while the collection also holds a document
of user bob. -/
def stW6 : EditorState :=
  { editorContent := "a-body", docTitle := "A", currentUser := "alice",
    currentProjectId := none, hasUnsavedChanges := true,
    store := fun v => if v = "bob" then
      [{ id := "9", title := "B", content := "b-body", author := "bob",
         createdAt := "d", modifiedAt := "d", published := false }] else [] }

/-- A session of user u with no pending changes. -/
def stW7 : EditorState :=
  { editorContent := "e", docTitle := "t", currentUser := "u",
    currentProjectId := none, hasUnsavedChanges := false,
    store := fun _ => [] }

/-- The login page before any submit. -/
def stC8 : LoginState :=
  { sessionUser := none, location := "login.html" }

/-- A fresh session of user carol with an empty collection. -/
def stW10 : EditorState :=
  { editorContent := "x", docTitle := "y", currentUser := "carol",
    currentProjectId := none, hasUnsavedChanges := true,
    store := fun _ => [] }

/-!
Helper lemmas about the embedded operations, shared by the claim
theorems below.
-/

/-- existsById is the boolean form of membership of the id. -/
theorem existsById_iff {docs : List Doc} {pid : String} :
    existsById docs pid = true ↔ ∃ d ∈ docs, d.id = pid := by
  simp [existsById]

/-- A list holding a document with the wanted id at some position
satisfies existsById. -/
theorem existsById_of_getElem? {docs : List Doc} {pid : String} {i : Nat} {d : Doc}
    (hg : docs[i]? = some d) (hid : d.id = pid) :
    existsById docs pid = true :=
  existsById_iff.mpr ⟨d, List.get?_mem (by simpa using hg), hid⟩

/-- find succeeds exactly when existsById holds. -/
theorem find?_isSome_of_existsById {docs : List Doc} {pid : String}
    (h : existsById docs pid = true) :
    (docs.find? (fun d => d.id == pid)).isSome = true := by
  rcases existsById_iff.mp h with ⟨d, hd, hid⟩
  cases hf : docs.find? (fun d => d.id == pid) with
  | some e => rfl
  | none =>
    have := List.find?_eq_none.mp hf d hd
    simp [hid] at this

/-- Mutating the first matching document: there is a first position i
holding a matching document d, every earlier position does not match,
and the result is the original list with position i replaced by f d. -/
theorem modifyFirstById_spec (docs : List Doc) (pid : String) (f : Doc → Doc)
    (h : existsById docs pid = true) :
    ∃ i d, docs[i]? = some d ∧ d.id = pid ∧
      (∀ j e, j < i → docs[j]? = some e → e.id ≠ pid) ∧
      modifyFirstById docs pid f = docs.set i (f d) := by
  induction docs with
  | nil => simp [existsById] at h
  | cons a rest ih =>
    by_cases ha : a.id = pid
    · refine ⟨0, a, by simp, ha, ?_, ?_⟩
      · intro j e hj
        omega
      · simp [modifyFirstById, ha]
    · have h' : existsById rest pid = true := by
        rcases existsById_iff.mp h with ⟨d, hd, hid⟩
        rcases List.mem_cons.mp hd with rfl | hmem
        · exact absurd hid ha
        · exact existsById_iff.mpr ⟨d, hmem, hid⟩
      obtain ⟨i, d, hg, hid, hmin, heq⟩ := ih h'
      refine ⟨i + 1, d, by simpa using hg, hid, ?_, ?_⟩
      · intro j e hj he
        cases j with
        | zero =>
          simp only [List.getElem?_cons_zero, Option.some.injEq] at he
          subst he
          exact ha
        | succ k =>
          exact hmin k e (by omega) (by simpa using he)
      · simp [modifyFirstById, ha, List.set, heq]

/-- Mutation of the first matching document keeps the list length. -/
theorem length_modifyFirstById (docs : List Doc) (pid : String) (f : Doc → Doc) :
    (modifyFirstById docs pid f).length = docs.length := by
  induction docs with
  | nil => rfl
  | cons a rest ih =>
    by_cases ha : a.id = pid <;> simp [modifyFirstById, ha, ih]

/-- Mutation of the first matching document by an id-preserving update
keeps the sequence of ids of the list. -/
theorem map_id_modifyFirstById (docs : List Doc) (pid : String) (f : Doc → Doc)
    (hf : ∀ d, (f d).id = d.id) :
    (modifyFirstById docs pid f).map Doc.id = docs.map Doc.id := by
  induction docs with
  | nil => rfl
  | cons a rest ih =>
    by_cases ha : a.id = pid <;> simp [modifyFirstById, ha, hf, ih]

/-- Two lists with the same sequence of ids satisfy the same
existsById queries. -/
theorem existsById_congr_map {docs1 docs2 : List Doc} {pid : String}
    (h : docs1.map Doc.id = docs2.map Doc.id) :
    existsById docs1 pid = existsById docs2 pid := by
  have : ∀ docs : List Doc, existsById docs pid = (docs.map Doc.id).any (fun s => s == pid) := by
    intro docs
    induction docs with
    | nil => rfl
    | cons a rest ih =>
      simp [existsById] at ih ⊢
      rw [ih]
  rw [this, this, h]

/-- After replacing the first matching position by a matching element,
find returns exactly that element. -/
theorem find?_set_first {α : Type} (p : α → Bool) (l : List α) (i : Nat) (d x : α)
    (hg : l[i]? = some d)
    (hmin : ∀ j e, j < i → l[j]? = some e → p e = false)
    (hx : p x = true) :
    (l.set i x).find? p = some x := by
  induction l generalizing i with
  | nil => simp at hg
  | cons a rest ih =>
    cases i with
    | zero => simp [List.set, List.find?_cons_of_pos, hx]
    | succ n =>
      have ha : p a = false := hmin 0 a (Nat.succ_pos n) (by simp)
      have : ((a :: rest).set (n + 1) x).find? p = (rest.set n x).find? p := by
        simp [List.set, List.find?_cons_of_neg, ha]
      rw [this]
      exact ih n (by simpa using hg)
        (fun j e hj he => hmin (j + 1) e (by omega) (by simpa using he))

/-- What a successful identity resolution tells about the state. -/
theorem saveMatchedId_eq_some {st : EditorState} {pid : String}
    (h : saveMatchedId st = some pid) :
    st.currentProjectId = some pid ∧ pid ≠ "" ∧
      existsById (st.store st.currentUser) pid = true := by
  unfold saveMatchedId at h
  split at h
  · simp at h
  · next q hc =>
    split at h
    · simp at h
    · next hq =>
      split at h
      · next he =>
        obtain rfl : q = pid := by injection h
        exact ⟨hc, hq, he⟩
      · simp at h

/-- saveDocument keeps the session user. -/
theorem saveDocument_currentUser (st : EditorState) (now newId : String) :
    (saveDocument st now newId).currentUser = st.currentUser := by
  unfold saveDocument
  cases saveMatchedId st <;> rfl

/-- saveDocument clears the unsaved-changes flag on both branches. -/
theorem saveDocument_hasUnsavedChanges (st : EditorState) (now newId : String) :
    (saveDocument st now newId).hasUnsavedChanges = false := by
  unfold saveDocument
  cases saveMatchedId st <;> rfl

/-- saveDocument writes only the list of the current user. -/
theorem saveDocument_store_other (st : EditorState) (now newId v : String)
    (hv : v ≠ st.currentUser) :
    (saveDocument st now newId).store v = st.store v := by
  unfold saveDocument
  cases saveMatchedId st with
  | none => simp [createNewDoc, setStore, hv]
  | some pid => simp [updateExistingDoc, setStore, hv]

/-- The JavaScript string disjunction with an empty right operand is
the identity. -/
theorem jsOr_empty_right (a : String) : jsOr a "" = a := by
  by_cases h : a = "" <;> simp [jsOr, h]

/-- The JavaScript string disjunction keeps a nonempty left operand. -/
theorem jsOr_of_ne (a b : String) (h : a ≠ "") : jsOr a b = a := by
  simp [jsOr, h]

/-- On a successful identity resolution, saveDocument takes the update
branch. -/
theorem saveDocument_eq_update {st : EditorState} {pid : String}
    (hm : saveMatchedId st = some pid) (now newId : String) :
    saveDocument st now newId = updateExistingDoc st pid now := by
  simp [saveDocument, hm]

/-- On a failed identity resolution, saveDocument takes the create
branch. -/
theorem saveDocument_eq_create {st : EditorState}
    (hm : saveMatchedId st = none) (now newId : String) :
    saveDocument st now newId = createNewDoc st now newId := by
  simp [saveDocument, hm]

/-- After any save with a nonempty generated id, the current project
id is set to some nonempty id. -/
theorem saveDocument_currentProjectId (st : EditorState) (now newId : String)
    (hne : newId ≠ "") :
    ∃ pid, (saveDocument st now newId).currentProjectId = some pid ∧ pid ≠ "" := by
  cases hm : saveMatchedId st with
  | some q =>
    obtain ⟨hp, hq, _⟩ := saveMatchedId_eq_some hm
    exact ⟨q, by rw [saveDocument_eq_update hm]; simpa [updateExistingDoc] using hp, hq⟩
  | none =>
    exact ⟨newId, by rw [saveDocument_eq_create hm]; rfl, hne⟩

/-- After any save, the current project id resolves to a document of
the current user in the stored collection: the save either updated the
matched document in place or pushed a new document carrying the
generated id. -/
theorem saveDocument_resolves (st : EditorState) (now newId pid : String)
    (hp : (saveDocument st now newId).currentProjectId = some pid) :
    existsById
      ((saveDocument st now newId).store (saveDocument st now newId).currentUser)
      pid = true := by
  cases hm : saveMatchedId st with
  | some q =>
    obtain ⟨hq, hqne, hex⟩ := saveMatchedId_eq_some hm
    rw [saveDocument_eq_update hm] at hp ⊢
    have hqp : q = pid := by
      simp only [updateExistingDoc] at hp
      rw [hq] at hp
      injection hp
    subst hqp
    have hstore :
        (updateExistingDoc st q now).store (updateExistingDoc st q now).currentUser =
          modifyFirstById (st.store st.currentUser) q
            (fun d => { d with title := st.docTitle, content := st.editorContent,
                               modifiedAt := now }) := by
      simp [updateExistingDoc, setStore]
    rw [hstore,
      existsById_congr_map (map_id_modifyFirstById (st.store st.currentUser) q
        (fun d => { d with title := st.docTitle, content := st.editorContent,
                           modifiedAt := now })
        (fun d => rfl))]
    exact hex
  | none =>
    rw [saveDocument_eq_create hm] at hp ⊢
    have hnp : newId = pid := by
      simp only [createNewDoc] at hp
      injection hp
    subst hnp
    have hstore :
        (createNewDoc st now newId).store (createNewDoc st now newId).currentUser =
          st.store st.currentUser ++
            [{ id := newId, title := st.docTitle, content := st.editorContent,
               author := st.currentUser, createdAt := now, modifiedAt := now,
               published := false }] := by
      simp [createNewDoc, setStore]
    rw [hstore]
    simp [existsById]

/-- publishAfterSave writes only the list of its current user. -/
theorem publishAfterSave_store_other (st1 : EditorState) (v : String)
    (hv : v ≠ st1.currentUser) (st2 : EditorState)
    (h : publishAfterSave st1 = some st2) :
    st2.store v = st1.store v := by
  unfold publishAfterSave at h
  split at h
  · injection h with h
    subst h
    rfl
  · split at h
    · injection h with h
      subst h
      rfl
    · split at h
      · exact absurd h (by simp)
      · injection h with h
        subst h
        simp [setStore, hv]

/-- When the state after the save resolves its current project id, the
publish step finds the document and returns the state whose only
further change is the published flag of the first matching document. -/
theorem publishAfterSave_eq (st1 : EditorState) (pid : String)
    (hp : st1.currentProjectId = some pid) (hne : pid ≠ "")
    (hex : existsById (st1.store st1.currentUser) pid = true) :
    ∃ i d, (st1.store st1.currentUser)[i]? = some d ∧ d.id = pid ∧
      publishAfterSave st1 =
        some { st1 with
               store := setStore st1.store st1.currentUser
                 ((st1.store st1.currentUser).set i { d with published := true }) } := by
  obtain ⟨i, d, hg, hid, hmin, heq⟩ :=
    modifyFirstById_spec (st1.store st1.currentUser) pid
      (fun d => { d with published := true }) hex
  have hfind : ((st1.store st1.currentUser).find? (fun d => d.id == pid)).isSome = true :=
    find?_isSome_of_existsById hex
  refine ⟨i, d, hg, hid, ?_⟩
  unfold publishAfterSave
  rw [hp]
  simp only [if_neg hne]
  cases hf : (st1.store st1.currentUser).find? (fun d => d.id == pid) with
  | none => rw [hf] at hfind; simp at hfind
  | some e =>
    simp only []
    rw [heq]

/-!
Claim theorems.
-/

/-- C1: for every save performed when the current project id is null
or matches no document in the current user list, saveDocument appends
exactly one new document to that user list, holding the editor content
and title, authored by the current user, unpublished, and its
generated id becomes the new current project id. -/
theorem save_creates_new_document (st : EditorState) (now newId : String)
    (h : st.currentProjectId = none ∨
      ∀ pid, st.currentProjectId = some pid →
        existsById (st.store st.currentUser) pid = false) :
    (saveDocument st now newId).store st.currentUser =
      st.store st.currentUser ++
        [{ id := newId, title := st.docTitle, content := st.editorContent,
           author := st.currentUser, createdAt := now, modifiedAt := now,
           published := false }] ∧
    (saveDocument st now newId).currentProjectId = some newId := by
  have hm : saveMatchedId st = none := by
    unfold saveMatchedId
    cases hc : st.currentProjectId with
    | none => rfl
    | some q =>
      rcases h with h | h
      · rw [h] at hc
        cases hc
      · have hq := h q hc
        simp [hq]
  rw [saveDocument_eq_create hm]
  constructor
  · simp [createNewDoc, setStore]
  · rfl

/-- Witness for C1: in a fresh alice session the save appends the one
new document and picks its id as the current project id. -/
theorem save_creates_new_document_witness :
    (saveDocument stW1 "d0" "42").store "alice" =
      stW1.store "alice" ++
        [{ id := "42", title := "T", content := "hello", author := "alice",
           createdAt := "d0", modifiedAt := "d0", published := false }] ∧
    (saveDocument stW1 "d0" "42").currentProjectId = some "42" :=
  save_creates_new_document stW1 "d0" "42" (Or.inl rfl)

/-- C2: for every save performed when the current project id matches a
stored document of the current user, saveDocument rewrites only the
title, content and modification date of the first matched document,
keeping its id, author, creation date and published flag, every other
document, every other user list, the list length and order, and the
current project id. -/
theorem save_updates_matched_document (st : EditorState) (now newId pid : String)
    (hp : st.currentProjectId = some pid) (hne : pid ≠ "")
    (hex : existsById (st.store st.currentUser) pid = true) :
    ∃ i d, (st.store st.currentUser)[i]? = some d ∧ d.id = pid ∧
      (saveDocument st now newId).store st.currentUser =
        (st.store st.currentUser).set i
          { d with title := st.docTitle, content := st.editorContent,
                   modifiedAt := now } ∧
      (∀ j, j ≠ i →
        ((saveDocument st now newId).store st.currentUser)[j]? =
          (st.store st.currentUser)[j]?) ∧
      ((saveDocument st now newId).store st.currentUser).length =
        (st.store st.currentUser).length ∧
      (∀ v, v ≠ st.currentUser →
        (saveDocument st now newId).store v = st.store v) ∧
      (saveDocument st now newId).currentProjectId = st.currentProjectId := by
  have hm : saveMatchedId st = some pid := by
    unfold saveMatchedId
    simp [hp, hne, hex]
  obtain ⟨i, d, hg, hid, hmin, heq⟩ :=
    modifyFirstById_spec (st.store st.currentUser) pid
      (fun d => { d with title := st.docTitle, content := st.editorContent,
                         modifiedAt := now }) hex
  have hstore : (saveDocument st now newId).store st.currentUser =
      (st.store st.currentUser).set i
        { d with title := st.docTitle, content := st.editorContent,
                 modifiedAt := now } := by
    rw [saveDocument_eq_update hm]
    simp only [updateExistingDoc]
    simp [setStore, heq]
  refine ⟨i, d, hg, hid, hstore, ?_, ?_, ?_, ?_⟩
  · intro j hj
    rw [hstore]
    exact List.getElem?_set_ne (Ne.symm hj)
  · rw [hstore]
    simp
  · intro v hv
    exact saveDocument_store_other st now newId v hv
  · rw [saveDocument_eq_update hm]
    rfl

/-- Witness for C2: updating document 1 of alice keeps both stored
documents in place and order, and rewrites only the matched one. -/
theorem save_updates_matched_document_witness :
    ((saveDocument stW2 "m9" "99").store stW2.currentUser).length = 2 := by
  obtain ⟨i, d, hg, hid, hset, hoth, hlen, hv, hpid⟩ :=
    save_updates_matched_document stW2 "m9" "99" "1" rfl (by decide) (by decide)
  rw [hlen]
  decide

/-- C6: for distinct usernames, a save or publish performed by the
current user leaves the document list of the other user unchanged. -/
theorem other_user_docs_unchanged (st : EditorState) (now newId v : String)
    (hv : v ≠ st.currentUser) :
    (saveDocument st now newId).store v = st.store v ∧
    (∀ st2, publishDocument st now newId = some st2 → st2.store v = st.store v) := by
  refine ⟨saveDocument_store_other st now newId v hv, ?_⟩
  intro st2 h2
  have hv1 : v ≠ (saveDocument st now newId).currentUser := by
    rw [saveDocument_currentUser]
    exact hv
  have h3 : st2.store v = (saveDocument st now newId).store v :=
    publishAfterSave_store_other (saveDocument st now newId) v hv1 st2 h2
  rw [h3]
  exact saveDocument_store_other st now newId v hv

/-- Witness for C6: a save by alice leaves the list of bob as it
was. -/
theorem other_user_docs_unchanged_witness :
    (saveDocument stW6 "d1" "5").store "bob" = stW6.store "bob" :=
  (other_user_docs_unchanged stW6 "d1" "5" "bob" (by decide)).1

/-- C7: one auto-save tick triggers a save exactly when the
unsaved-changes flag is set; a tick without pending changes leaves the
whole state, hence the stored collection, unchanged, and a triggered
save ends with the flag cleared. -/
theorem auto_save_tick_spec (st : EditorState) (now newId : String) :
    (st.hasUnsavedChanges = false → autoSaveTick st now newId = st) ∧
    (st.hasUnsavedChanges = true →
      autoSaveTick st now newId = saveDocument st now newId ∧
      (autoSaveTick st now newId).hasUnsavedChanges = false) := by
  refine ⟨fun h => ?_, fun h => ⟨?_, ?_⟩⟩
  · simp [autoSaveTick, h]
  · simp [autoSaveTick, h]
  · simp [autoSaveTick, h, saveDocument_hasUnsavedChanges]

/-- Witness for C7: a tick in a session without pending changes does
nothing. -/
theorem auto_save_tick_spec_witness :
    autoSaveTick stW7 "d" "1" = stW7 :=
  (auto_save_tick_spec stW7 "d" "1").1 rfl

/-- C9: publishDocument never dereferences a missing document: the
saveDocument call it starts with either finds the current document or
creates one and sets the current project id, so the publish step never
reaches the error outcome. -/
theorem publish_never_dereferences_missing (st : EditorState) (now newId : String) :
    (publishDocument st now newId).isSome = true := by
  unfold publishDocument
  cases hc : (saveDocument st now newId).currentProjectId with
  | none => simp [publishAfterSave, hc]
  | some pid =>
    by_cases hpe : pid = ""
    · simp [publishAfterSave, hc, hpe]
    · have hex := saveDocument_resolves st now newId pid hc
      have hfind := find?_isSome_of_existsById hex
      unfold publishAfterSave
      rw [hc]
      simp only [if_neg hpe]
      cases hf : ((saveDocument st now newId).store
          (saveDocument st now newId).currentUser).find? (fun d => d.id == pid) with
      | none =>
        rw [hf] at hfind
        simp at hfind
      | some e => simp [hf]

/-- C3: for every publish with a nonempty generated id, publishDocument
succeeds and returns the post-save state changed only at the document
the current id resolves to, whose published flag becomes true while
all its other fields, all other documents and all other user lists
stay as the save left them. -/
theorem publish_sets_published_flag (st : EditorState) (now newId : String)
    (hne : newId ≠ "") :
    ∃ pid i d st2,
      publishDocument st now newId = some st2 ∧
      (saveDocument st now newId).currentProjectId = some pid ∧
      ((saveDocument st now newId).store st.currentUser)[i]? = some d ∧
      d.id = pid ∧
      st2.store st.currentUser =
        ((saveDocument st now newId).store st.currentUser).set i
          { d with published := true } ∧
      (∀ j, j ≠ i → (st2.store st.currentUser)[j]? =
        ((saveDocument st now newId).store st.currentUser)[j]?) ∧
      (∀ v, v ≠ st.currentUser → st2.store v = st.store v) ∧
      st2.editorContent = (saveDocument st now newId).editorContent ∧
      st2.docTitle = (saveDocument st now newId).docTitle ∧
      st2.currentProjectId = (saveDocument st now newId).currentProjectId := by
  obtain ⟨pid, hp, hpne⟩ := saveDocument_currentProjectId st now newId hne
  have hex := saveDocument_resolves st now newId pid hp
  obtain ⟨i, d, hg, hid, heq⟩ :=
    publishAfterSave_eq (saveDocument st now newId) pid hp hpne hex
  have hcu := saveDocument_currentUser st now newId
  rw [hcu] at hg
  refine ⟨pid, i, d,
    { (saveDocument st now newId) with
      store := setStore (saveDocument st now newId).store
        (saveDocument st now newId).currentUser
        (((saveDocument st now newId).store
            (saveDocument st now newId).currentUser).set i
          { d with published := true }) },
    ?_, hp, hg, hid, ?_, ?_, ?_, rfl, rfl, rfl⟩
  · unfold publishDocument
    exact heq
  · show setStore (saveDocument st now newId).store
      (saveDocument st now newId).currentUser _ st.currentUser = _
    rw [hcu]
    simp [setStore]
  · intro j hj
    show (setStore (saveDocument st now newId).store
      (saveDocument st now newId).currentUser _ st.currentUser)[j]? = _
    rw [hcu]
    simp only [setStore, if_pos rfl]
    exact List.getElem?_set_ne (Ne.symm hj)
  · intro v hv
    show setStore (saveDocument st now newId).store
      (saveDocument st now newId).currentUser _ v = _
    rw [hcu]
    simp only [setStore, if_neg hv]
    exact saveDocument_store_other st now newId v hv

/-- Witness for C3: publishing from a fresh alice session succeeds. -/
theorem publish_sets_published_flag_witness :
    (publishDocument stW3 "d3" "7").isSome = true := by
  obtain ⟨pid, i, d, st2, h1, _⟩ :=
    publish_sets_published_flag stW3 "d3" "7" (by decide)
  rw [h1]
  rfl

/-- C4 as stated fails on the code: when the stored document carries an
empty title, loadDocument shows the fallback title, not the stored
title. -/
theorem load_stored_title_counterexample :
    docToLoadOf stC4 = some docC4 ∧ docC4.title = "" ∧
    (loadDocument stC4).docTitle ≠ docC4.title ∧
    (loadDocument stC4).docTitle = "Untitled Document" := by decide

/-- C4 amended: on a hit, loadDocument shows the stored content and
the stored title when the latter is nonempty, the fallback title
otherwise; on a miss it resets the current project id and shows a
blank untitled document; the stored collection is unchanged either
way. -/
theorem load_resolves_document (st : EditorState) :
    (loadDocument st).store = st.store ∧
    (∀ d, docToLoadOf st = some d →
      (loadDocument st).editorContent = d.content ∧
      (loadDocument st).docTitle =
        (if d.title = "" then "Untitled Document" else d.title) ∧
      (loadDocument st).currentProjectId = st.currentProjectId) ∧
    (docToLoadOf st = none →
      (loadDocument st).currentProjectId = none ∧
      (loadDocument st).editorContent = "" ∧
      (loadDocument st).docTitle = "Untitled Document") := by
  refine ⟨?_, ?_, ?_⟩
  · unfold loadDocument
    cases docToLoadOf st <;> rfl
  · intro d hd
    unfold loadDocument
    rw [hd]
    exact ⟨jsOr_empty_right d.content, rfl, rfl⟩
  · intro hd
    unfold loadDocument
    rw [hd]
    exact ⟨rfl, rfl, rfl⟩

/-- Witness for C4: loading the empty-titled document of stC4 shows
its stored content and the fallback title. -/
theorem load_resolves_document_witness :
    (loadDocument stC4).editorContent = "c" ∧
    (loadDocument stC4).docTitle = "Untitled Document" := by
  obtain ⟨h1, h2, h3⟩ := (load_resolves_document stC4).2.1 docC4 (by decide)
  refine ⟨h1, ?_⟩
  rw [h2]
  decide

/-- C5 as stated fails on the code: saving with an empty title and
loading the produced id restores the fallback title, not the saved
one. -/
theorem save_load_roundtrip_counterexample :
    stC5.docTitle = "" ∧
    (loadDocument (saveDocument stC5 "d5" "1")).docTitle ≠ stC5.docTitle ∧
    (loadDocument (saveDocument stC5 "d5" "1")).docTitle = "Untitled Document" := by
  decide

/-- C5 amended: for a nonempty title and a nonempty generated id not
colliding with a stored id of the user, saving and then loading with
the id produced by the save restores exactly the saved content and
title. -/
theorem save_load_roundtrip (st : EditorState) (now newId : String)
    (ht : st.docTitle ≠ "") (hne : newId ≠ "")
    (hfresh : ∀ d ∈ st.store st.currentUser, d.id ≠ newId) :
    (loadDocument (saveDocument st now newId)).editorContent = st.editorContent ∧
    (loadDocument (saveDocument st now newId)).docTitle = st.docTitle := by
  cases hm : saveMatchedId st with
  | some pid =>
    obtain ⟨hp, hpne, hex⟩ := saveMatchedId_eq_some hm
    obtain ⟨i, d, hg, hid, hmin, heq⟩ :=
      modifyFirstById_spec (st.store st.currentUser) pid
        (fun d => { d with title := st.docTitle, content := st.editorContent,
                           modifiedAt := now }) hex
    have hload : docToLoadOf (saveDocument st now newId) =
        some { d with title := st.docTitle, content := st.editorContent,
                      modifiedAt := now } := by
      rw [saveDocument_eq_update hm]
      unfold docToLoadOf
      have hcp : (updateExistingDoc st pid now).currentProjectId = some pid := by
        simpa [updateExistingDoc] using hp
      rw [hcp]
      simp only [if_neg hpne]
      have hdocs : (updateExistingDoc st pid now).store
          (updateExistingDoc st pid now).currentUser =
          (st.store st.currentUser).set i
            { d with title := st.docTitle, content := st.editorContent,
                     modifiedAt := now } := by
        simp [updateExistingDoc, setStore, heq]
      rw [hdocs]
      exact find?_set_first _ _ i d _ hg
        (fun j e hj he => by simpa using hmin j e hj he)
        (by simp [hid])
    rw [saveDocument_eq_update hm] at hload ⊢
    unfold loadDocument
    rw [hload]
    exact ⟨jsOr_empty_right st.editorContent, jsOr_of_ne st.docTitle _ ht⟩
  | none =>
    have hload : docToLoadOf (saveDocument st now newId) =
        some { id := newId, title := st.docTitle, content := st.editorContent,
               author := st.currentUser, createdAt := now, modifiedAt := now,
               published := false } := by
      rw [saveDocument_eq_create hm]
      unfold docToLoadOf
      have hcp : (createNewDoc st now newId).currentProjectId = some newId := rfl
      rw [hcp]
      simp only [if_neg hne]
      have hdocs : (createNewDoc st now newId).store
          (createNewDoc st now newId).currentUser =
          st.store st.currentUser ++
            [{ id := newId, title := st.docTitle, content := st.editorContent,
               author := st.currentUser, createdAt := now, modifiedAt := now,
               published := false }] := by
        simp [createNewDoc, setStore]
      rw [hdocs]
      have hnone : (st.store st.currentUser).find? (fun d => d.id == newId) = none :=
        List.find?_eq_none.mpr (fun x hx => by simp [hfresh x hx])
      rw [List.find?_append, hnone]
      simp
    rw [saveDocument_eq_create hm] at hload ⊢
    unfold loadDocument
    rw [hload]
    exact ⟨jsOr_empty_right st.editorContent, jsOr_of_ne st.docTitle _ ht⟩

/-- Witness for C5: in a fresh session with a nonempty title, save
followed by load restores the content and the title. -/
theorem save_load_roundtrip_witness :
    (loadDocument (saveDocument stW5 "d5" "8")).editorContent = "body5" ∧
    (loadDocument (saveDocument stW5 "d5" "8")).docTitle = "Title5" :=
  save_load_roundtrip stW5 "d5" "8" (by decide) (by decide) (by decide)

/-- C8 as stated fails on the code: submitting an empty username does
not store a session user and does not redirect. -/
theorem login_rejects_empty_username_counterexample :
    loginSubmit stC8 "" = stC8 ∧ stC8.sessionUser = none ∧
    stC8.location ≠ "docs.html" := by decide

/-- C8 amended: for every submitted username whose trimmed value is
nonempty, the handler stores the trimmed username as the session user
and redirects to the editor page; a whitespace-only or empty
submission changes nothing. -/
theorem login_submit_spec (st : LoginState) (input : String) :
    (jsTrim input ≠ "" →
      loginSubmit st input =
        { sessionUser := some (jsTrim input), location := "docs.html" }) ∧
    (jsTrim input = "" → loginSubmit st input = st) := by
  refine ⟨fun h => ?_, fun h => ?_⟩
  · simp [loginSubmit, h]
  · simp [loginSubmit, h]

/-- Witness for C8: submitting a padded username stores the trimmed
name and redirects. -/
theorem login_submit_spec_witness :
    loginSubmit stC8 " zeno " =
      { sessionUser := some "zeno", location := "docs.html" } := by
  have h := (login_submit_spec stC8 " zeno ").1 (by decide)
  rw [h]
  decide

/-- C10: a save never removes a document: other user lists are
untouched, the sequence of ids of the current user list is either kept
(update) or extended by exactly the generated id (create), and a
second save in the same session adds no further document. -/
theorem save_never_removes_documents (st : EditorState)
    (now newId now2 newId2 : String) (hne : newId ≠ "") :
    (∀ v, v ≠ st.currentUser →
      (saveDocument st now newId).store v = st.store v) ∧
    (∀ pid, saveMatchedId st = some pid →
      ((saveDocument st now newId).store st.currentUser).map Doc.id =
        (st.store st.currentUser).map Doc.id) ∧
    (saveMatchedId st = none →
      ((saveDocument st now newId).store st.currentUser).map Doc.id =
        (st.store st.currentUser).map Doc.id ++ [newId]) ∧
    ((saveDocument (saveDocument st now newId) now2 newId2).store
        st.currentUser).length =
      ((saveDocument st now newId).store st.currentUser).length := by
  obtain ⟨pid1, hp1, hpne1⟩ := saveDocument_currentProjectId st now newId hne
  have hex1 := saveDocument_resolves st now newId pid1 hp1
  have hm1 : saveMatchedId (saveDocument st now newId) = some pid1 := by
    unfold saveMatchedId
    rw [hp1]
    simp [hpne1, hex1]
  have hcu := saveDocument_currentUser st now newId
  refine ⟨fun v hv => saveDocument_store_other st now newId v hv, ?_, ?_, ?_⟩
  · intro q hm
    rw [saveDocument_eq_update hm]
    simp only [updateExistingDoc]
    simp only [setStore, if_pos rfl]
    exact map_id_modifyFirstById _ _ _ (fun d => rfl)
  · intro hm
    rw [saveDocument_eq_create hm]
    simp [createNewDoc, setStore]
  · rw [saveDocument_eq_update hm1]
    simp only [updateExistingDoc]
    rw [hcu]
    simp only [setStore, if_pos rfl]
    exact length_modifyFirstById _ _ _

/-- Witness for C10: two consecutive saves in a fresh carol session
leave exactly one document. -/
theorem save_never_removes_documents_witness :
    ((saveDocument (saveDocument stW10 "d1" "3") "d2" "4").store
        stW10.currentUser).length =
      ((saveDocument stW10 "d1" "3").store stW10.currentUser).length :=
  (save_never_removes_documents stW10 "d1" "3" "d2" "4" (by decide)).2.2.2

